import Mathlib

/-!
Shallow embedding of the CURT external chatbot backend
(`backend/prompts.py`, `backend/memory_maager.py`, `backend/rag_pipeline.py`).

Python strings are modelled as `List Char` (`pystr`); the relevant string
methods (`lower`, `strip`, `upper`, `startswith`, the `in` substring test,
`join`) are modelled over ASCII text, which covers every literal appearing
in the program.  External collaborators (expansion LLM, vector retriever,
Cohere reranker, generation LLM, verification LLM) are modelled as oracle
functions supplied to the pipeline; the reranker may fail (`Except`),
matching the `try/except` guard in `_rerank_with_cohere`.
-/

/-- Python strings, modelled as lists of characters. -/
abbrev pystr := List Char

/-- Convert a Lean string literal to the `pystr` model. -/
def pstr (s : String) : pystr := s.toList

/-- Python `str.lower()` (ASCII, which covers all text this program compares). -/
def pyLower (s : pystr) : pystr := s.map Char.toLower

/-- Python `str.upper()` (ASCII). -/
def pyUpper (s : pystr) : pystr := s.map Char.toUpper

/-- Python `str.strip()`: remove whitespace from both ends. -/
def pyStrip (s : pystr) : pystr :=
  ((s.dropWhile Char.isWhitespace).reverse.dropWhile Char.isWhitespace).reverse

/-- Python `s.startswith(p)`. -/
def pyStartsWith (s p : pystr) : Bool :=
  match p, s with
  | [], _ => true
  | _ :: _, [] => false
  | c :: p', d :: s' => c == d && pyStartsWith s' p'

/-- Python `needle in hay` substring test. -/
def pyContains (hay needle : pystr) : Bool :=
  pyStartsWith hay needle ||
    match hay with
    | [] => false
    | _ :: t => pyContains t needle

/-- Python `sep.join(parts)`. -/
def pyJoin (sep : pystr) (parts : List pystr) : pystr :=
  match parts with
  | [] => []
  | [p] => p
  | p :: rest => p ++ sep ++ pyJoin sep rest

theorem pyStartsWith_iff (s p : pystr) :
    pyStartsWith s p = true ↔ ∃ t, s = p ++ t := by
  induction p generalizing s with
  | nil => simp [pyStartsWith]
  | cons c p' ih =>
    cases s with
    | nil => simp [pyStartsWith]
    | cons d s' =>
      simp only [pyStartsWith, Bool.and_eq_true, beq_iff_eq, ih]
      constructor
      · rintro ⟨rfl, t, rfl⟩; exact ⟨t, rfl⟩
      · rintro ⟨t, h⟩
        simp only [List.cons_append, List.cons.injEq] at h
        exact ⟨h.1.symm, t, h.2⟩

theorem pyContains_iff (hay needle : pystr) :
    pyContains hay needle = true ↔ ∃ u v, hay = u ++ needle ++ v := by
  induction hay with
  | nil =>
    simp only [pyContains, Bool.or_eq_true, pyStartsWith_iff]
    constructor
    · rintro (⟨t, h⟩ | h)
      · exact ⟨[], t, h⟩
      · simp at h
    · rintro ⟨u, v, h⟩
      rcases List.append_eq_nil.mp (List.append_eq_nil.mp h.symm).1 with ⟨rfl, rfl⟩
      exact Or.inl ⟨v, h⟩
  | cons c t ih =>
    simp only [pyContains, Bool.or_eq_true, pyStartsWith_iff, ih]
    constructor
    · rintro (⟨u, h⟩ | ⟨u, v, h⟩)
      · exact ⟨[], u, by simpa using h⟩
      · exact ⟨c :: u, v, by simp [h]⟩
    · rintro ⟨u, v, h⟩
      cases u with
      | nil => exact Or.inl ⟨v, by simpa using h⟩
      | cons x u' =>
        simp only [List.cons_append, List.cons.injEq] at h
        exact Or.inr ⟨u', v, h.2⟩

theorem pyContains_append_right (hay tail needle : pystr)
    (h : pyContains hay needle = true) :
    pyContains (hay ++ tail) needle = true := by
  rcases (pyContains_iff hay needle).mp h with ⟨u, v, rfl⟩
  exact (pyContains_iff _ _).mpr ⟨u, v ++ tail, by simp⟩

theorem pyContains_suffix (hay needle : pystr) :
    pyContains (hay ++ needle) needle = true :=
  (pyContains_iff _ _).mpr ⟨hay, [], by simp⟩

/-! ## prompts.py : canned responses and classifiers -/

def NO_CONTEXT_RESPONSE : pystr := pstr "I don't have specific information about that in my current knowledge base. \n\nHere's what I can help you with:\n- CURT team structure and members\n- History and achievements\n- Current projects and competitions\n- FAQs about joining or collaborating\n\nYou can also reach out to CURT directly through their official channels for more detailed information."

def GREETING_RESPONSE : pystr := pstr "Hello! I'm the CURT chatbot, here to help you learn about the Cairo University Racing Team.\n\nI can tell you about:\n- Our team structure and members\n- Competition history and achievements  \n- Current projects\n- How to get involved\n\nWhat would you like to know?"

def OFF_TOPIC_RESPONSE : pystr := pstr "I'm specifically designed to answer questions about CURT (Cairo University Racing Team). \n\nI can help you with information about:\n- The team and its members\n- Competitions and achievements\n- Projects and technical work\n- How to join or collaborate\n\nIs there anything about CURT I can help you with?"

def greetings : List pystr :=
  [pstr "hi", pstr "hello", pstr "hey", pstr "greetings", pstr "good morning",
   pstr "good afternoon", pstr "good evening"]

/-- `prompts.is_greeting`. -/
def is_greeting (query : pystr) : Bool :=
  let query_lower := pyStrip (pyLower query)
  greetings.contains query_lower ||
    greetings.any (fun g =>
      pyStartsWith query_lower (g ++ pstr " ") || pyStartsWith query_lower (g ++ pstr ","))

def off_topic_keywords : List pystr :=
  [pstr "weather", pstr "recipe", pstr "movie", pstr "sports score", pstr "politics",
   pstr "stock", pstr "celebrity", pstr "video game", pstr "restaurant", pstr "fashion"]

def on_topic_terms : List pystr :=
  [pstr "curt", pstr "car", pstr "racing team", pstr "competition", pstr "racing",
   pstr "cairo university"]

/-- `prompts.is_off_topic`. -/
def is_off_topic (query : pystr) : Bool :=
  let query_lower := pyLower query
  if on_topic_terms.any (fun term => pyContains query_lower term) then false
  else off_topic_keywords.any (fun keyword => pyContains query_lower keyword)

/-! ## Data model: messages, LangChain messages, retrieved chunks -/

/-- A Python message dict `{"role": ..., "content": ...}`; either key may be
absent, matching the `msg.get(key, default)` accesses in the code. -/
structure Msg where
  role : Option pystr
  content : Option pystr
deriving DecidableEq

/-- A LangChain message object (`HumanMessage` / `AIMessage`). -/
inductive LCMessage where
  | human (content : pystr)
  | ai (content : pystr)
deriving DecidableEq

/-- A retrieved chunk (LangChain `Document`): page content plus metadata.
`source` is the `metadata['source']` entry (absent modelled as `none`);
`rerank_score` is the metadata entry written by `_rerank_with_cohere`
(score values are opaque to every claim, modelled as `Int`). -/
structure Doc where
  page_content : pystr
  source : Option pystr
  rerank_score : Option Int
deriving DecidableEq

/-! ## memory_maager.py : MemoryManager -/

namespace MemoryManager

/-- `MemoryManager.get_recent_history`: `full_history[-(window_size*2):]`.
Python slice `l[-k:]` with `k = 0` is the whole list, hence the extra case. -/
def get_recent_history (window_size : Nat) (full_history : List Msg) : List Msg :=
  if full_history = [] then []
  else
    let max_messages := window_size * 2
    if max_messages = 0 then full_history
    else full_history.drop (full_history.length - max_messages)

end MemoryManager

/-! ## prompts.py : format_sources and format_chat_history -/

/-- The source identifier of a chunk: `chunk.metadata.get('source', 'Unknown')`. -/
def sourceOf (chunk : Doc) : pystr := chunk.source.getD (pstr "Unknown")

/-- The loop of `format_sources`: walk the chunks with 1-based index `i` and
the `seen_sources` set, emitting `(i, source)` for each not-yet-seen source. -/
def emitSources (i : Nat) (seen : List pystr) : List Doc → List (Nat × pystr)
  | [] => []
  | chunk :: rest =>
    let source := sourceOf chunk
    if source ∈ seen then emitSources (i + 1) seen rest
    else (i, source) :: emitSources (i + 1) (source :: seen) rest

/-- `prompts.format_sources`. The accumulated string is the header followed by
the emitted `f"{i}. {source}\n"` lines in order. -/
def format_sources (chunks : List Doc) : pystr :=
  if chunks = [] then []
  else
    pstr "\n\n**Sources:**\n" ++
      ((emitSources 1 [] chunks).map
        (fun p => pstr (toString p.1) ++ pstr ". " ++ p.2 ++ pstr "\n")).flatten


/-- The per-message conversion inside `prompts.format_chat_history`:
`role = msg.get('role', 'user')`, `content = msg.get('content', '')`;
`user` becomes a `HumanMessage`, `assistant` an `AIMessage`, anything else
is skipped. -/
def convertMsg (msg : Msg) : Option LCMessage :=
  let role := msg.role.getD (pstr "user")
  let content := msg.content.getD []
  if role = pstr "user" then some (LCMessage.human content)
  else if role = pstr "assistant" then some (LCMessage.ai content)
  else none

/-- `prompts.format_chat_history`. -/
def format_chat_history (messages : List Msg) : List LCMessage :=
  messages.filterMap convertMsg

/-- `prompts.enhance_response_with_sources`. -/
def enhance_response_with_sources (answer : pystr) (chunks : List Doc) : pystr :=
  let sources := format_sources chunks
  if sources ≠ [] then answer ++ pstr "\n" ++ sources else answer

/-! ## rag_pipeline.py : CURTRagPipeline -/

/-- One entry of the Cohere rerank response: `result.index` and
`result.relevance_score` (score values are opaque to every claim). -/
structure RerankResult where
  index : Nat
  relevance_score : Int
deriving DecidableEq

/-- The external collaborators of the pipeline, as oracles.  Expansion,
generation and verification are modelled by their successful behaviour
(their exceptions propagate out of `run` untouched); the Cohere rerank call
may raise, modelled by `Except`. -/
structure Oracles where
  expand : pystr → pystr
  retrieve : pystr → List Doc
  rerank : pystr → List pystr → Nat → Except Unit (List RerankResult)
  generate : pystr → pystr → List LCMessage → pystr
  verify : pystr → pystr → pystr

/-- The pipeline status strings of the dicts returned by `run`. -/
inductive Status where
  | greeting
  | off_topic
  | no_docs
  | success
deriving DecidableEq

/-- The dict returned by `CURTRagPipeline.run`.  The three short-circuit
returns carry only `answer`, `sources` and `status`; the absent
`raw_answer` and `expanded_query` keys are modelled as `none`. -/
structure PipelineResult where
  answer : pystr
  raw_answer : Option pystr
  sources : List Doc
  expanded_query : Option pystr
  status : Status
deriving DecidableEq

/-- The disclaimer appended when the hallucination check flags the answer. -/
def DISCLAIMER : pystr :=
  pstr "\n\n*(Note: I verified this answer against my database and found some parts might not be explicitly supported. Please verify with official team documents.)*"

/-- The loop over `rerank_response.results`: `documents[result.index]` with
`metadata['rerank_score'] = result.relevance_score`.  An out-of-range index
raises inside the `try` block, modelled as `none`. -/
def buildReranked (documents : List Doc) (results : List RerankResult) :
    Option (List Doc) :=
  results.mapM (fun r =>
    (documents.get? r.index).map (fun d => { d with rerank_score := some r.relevance_score }))

/-- `CURTRagPipeline._rerank_with_cohere`: on an empty input return `[]`;
otherwise call the Cohere oracle, and on any failure (including an
out-of-range index in its response) fall back to `documents[:top_n]`. -/
def rerank_with_cohere (O : Oracles) (query : pystr) (documents : List Doc)
    (top_n : Nat) : List Doc :=
  if documents = [] then []
  else
    match O.rerank query (documents.map (·.page_content)) top_n with
    | Except.error _ => documents.take top_n
    | Except.ok results =>
      match buildReranked documents results with
      | none => documents.take top_n
      | some reranked_docs => reranked_docs

namespace CURTRagPipeline

/-- The local `expanded_query = self.expansion_chain.invoke(...)` of `run`. -/
def expanded_query (O : Oracles) (query : pystr) : pystr := O.expand query

/-- The local `raw_docs = self.retriever.invoke(expanded_query)` of `run`. -/
def raw_docs (O : Oracles) (query : pystr) : List Doc :=
  O.retrieve (expanded_query O query)

/-- The local `valid_docs = self._rerank_with_cohere(query, raw_docs, top_n=5)`. -/
def valid_docs (O : Oracles) (query : pystr) : List Doc :=
  rerank_with_cohere O query (raw_docs O query) 5

/-- The local `compressed_context = "\n\n".join(...)` of `run`. -/
def compressed_context (O : Oracles) (query : pystr) : pystr :=
  pyJoin (pstr "\n\n") ((valid_docs O query).map (·.page_content))

/-- The local `answer = self.rag_chain.invoke(...)` of `run`, before the
possible disclaimer is appended. -/
def draft_answer (O : Oracles) (query : pystr) (chat_history : List Msg) : pystr :=
  O.generate (compressed_context O query) query (format_chat_history chat_history)

/-- The local `check_result = self.hallucination_chain.invoke(...)` of `run`. -/
def check_result (O : Oracles) (query : pystr) (chat_history : List Msg) : pystr :=
  O.verify (compressed_context O query) (draft_answer O query chat_history)

/-- The value of the local `answer` after the hallucination branch
`if check_result.strip().upper().startswith("HALLUCINATION"): answer += ...`. -/
def checked_answer (O : Oracles) (query : pystr) (chat_history : List Msg) : pystr :=
  if pyStartsWith (pyUpper (pyStrip (check_result O query chat_history)))
      (pstr "HALLUCINATION")
  then draft_answer O query chat_history ++ DISCLAIMER
  else draft_answer O query chat_history

/-- `CURTRagPipeline.run`. -/
def run (O : Oracles) (query : pystr) (chat_history : List Msg) : PipelineResult :=
  if is_greeting query then
    { answer := GREETING_RESPONSE, raw_answer := none, sources := [],
      expanded_query := none, status := Status.greeting }
  else if is_off_topic query then
    { answer := OFF_TOPIC_RESPONSE, raw_answer := none, sources := [],
      expanded_query := none, status := Status.off_topic }
  else if raw_docs O query = [] then
    { answer := NO_CONTEXT_RESPONSE, raw_answer := none, sources := [],
      expanded_query := none, status := Status.no_docs }
  else
    { answer := enhance_response_with_sources (checked_answer O query chat_history)
        (valid_docs O query),
      raw_answer := some (checked_answer O query chat_history),
      sources := valid_docs O query,
      expanded_query := some (expanded_query O query),
      status := Status.success }

end CURTRagPipeline

/-! ## Auxiliary lemmas and spec-side reference definitions -/

/-- Modelled from the spec's words for `format_sources`: "source identifiers
deduplicated by first occurrence, preserving original order", relative to an
already-seen set. -/
def firstDedupAux (seen : List pystr) : List pystr → List pystr
  | [] => []
  | x :: xs =>
    if x ∈ seen then firstDedupAux seen xs
    else x :: firstDedupAux (x :: seen) xs

/-- Modelled from the spec's words for `format_sources`: the input list with
every element kept only at its first occurrence, order preserved. -/
def firstDedup (l : List pystr) : List pystr := firstDedupAux [] l

theorem emitSources_map_snd (chunks : List Doc) :
    ∀ (i : Nat) (seen : List pystr),
      (emitSources i seen chunks).map Prod.snd = firstDedupAux seen (chunks.map sourceOf) := by
  induction chunks with
  | nil => intro i seen; rfl
  | cons c cs ih =>
    intro i seen
    simp only [emitSources, List.map_cons, firstDedupAux]
    by_cases h : sourceOf c ∈ seen
    · simp [h, ih]
    · simp [h, ih]

theorem firstDedupAux_mem (l : List pystr) :
    ∀ (seen : List pystr) (x : pystr),
      x ∈ firstDedupAux seen l ↔ (x ∈ l ∧ x ∉ seen) := by
  induction l with
  | nil => intro seen x; simp [firstDedupAux]
  | cons y ys ih =>
    intro seen x
    simp only [firstDedupAux]
    by_cases h : y ∈ seen
    · rw [if_pos h, ih]
      constructor
      · rintro ⟨hx, hs⟩; exact ⟨List.mem_cons_of_mem _ hx, hs⟩
      · rintro ⟨hx, hs⟩
        rcases List.mem_cons.mp hx with rfl | hx2
        · exact absurd h hs
        · exact ⟨hx2, hs⟩
    · rw [if_neg h]
      constructor
      · intro hx
        rcases List.mem_cons.mp hx with rfl | hx2
        · exact ⟨List.mem_cons_self _ _, h⟩
        · obtain ⟨h1, h2⟩ := (ih _ _).mp hx2
          exact ⟨List.mem_cons_of_mem _ h1, fun hc => h2 (List.mem_cons_of_mem _ hc)⟩
      · rintro ⟨hx, hs⟩
        rcases List.mem_cons.mp hx with rfl | hx2
        · exact List.mem_cons_self _ _
        · by_cases hxy : x = y
          · subst hxy; exact List.mem_cons_self _ _
          · refine List.mem_cons_of_mem _ ((ih _ _).mpr ⟨hx2, fun hc => ?_⟩)
            rcases List.mem_cons.mp hc with h1 | h2
            · exact hxy h1
            · exact hs h2

theorem firstDedupAux_nodup (l : List pystr) :
    ∀ seen : List pystr, (firstDedupAux seen l).Nodup := by
  induction l with
  | nil => intro seen; simp [firstDedupAux]
  | cons y ys ih =>
    intro seen
    simp only [firstDedupAux]
    by_cases h : y ∈ seen
    · simp [h, ih]
    · simp only [h, if_false, List.nodup_cons]
      refine ⟨fun hc => ?_, ih _⟩
      exact ((firstDedupAux_mem ys (y :: seen) y).mp hc).2 (List.mem_cons_self _ _)

theorem emitSources_index (chunks : List Doc) :
    ∀ (i : Nat) (seen : List pystr) (n : Nat) (s : pystr),
      (n, s) ∈ emitSources i seen chunks →
        i ≤ n ∧ (chunks.map sourceOf)[n - i]? = some s := by
  induction chunks with
  | nil => intro i seen n s h; simp [emitSources] at h
  | cons c cs ih =>
    intro i seen n s h
    simp only [emitSources] at h
    by_cases hm : sourceOf c ∈ seen
    · rw [if_pos hm] at h
      obtain ⟨h1, h2⟩ := ih (i + 1) seen n s h
      refine ⟨by omega, ?_⟩
      have : n - i = (n - (i + 1)) + 1 := by omega
      simpa [this] using h2
    · rw [if_neg hm] at h
      rcases List.mem_cons.mp h with heq | htail
      · rw [Prod.mk.injEq] at heq
        obtain ⟨rfl, rfl⟩ := heq
        simp
      · obtain ⟨h1, h2⟩ := ih (i + 1) (sourceOf c :: seen) n s htail
        refine ⟨by omega, ?_⟩
        have : n - i = (n - (i + 1)) + 1 := by omega
        simpa [this] using h2

/-! ## Sample data for concrete evaluations -/

/-- A sample retrieved chunk. -/
def sampleDoc : Doc := ⟨pstr "CURT builds a formula student car every season.", some (pstr "team.md"), none⟩

/-- Collaborators whose rerank call succeeds. -/
def sampleOracles : Oracles :=
  { expand := fun q => q ++ pstr " details",
    retrieve := fun _ => [sampleDoc],
    rerank := fun _ _ _ => Except.ok [⟨0, 9⟩],
    generate := fun _ _ _ => pstr "CURT builds a car.",
    verify := fun _ _ => pstr "GROUNDED" }

/-- Collaborators whose rerank call raises and whose verification flags the
draft answer as unsupported. -/
def flagOracles : Oracles :=
  { expand := fun q => q,
    retrieve := fun _ => [sampleDoc],
    rerank := fun _ _ _ => Except.error (),
    generate := fun _ _ _ => pstr "CURT won in 1999.",
    verify := fun _ _ => pstr "HALLUCINATION: the year is unsupported" }

/-! ## Claim theorems -/

set_option maxRecDepth 8000

/-- C1: the spec claims `get_recent_history` always returns an even-length
suffix (complete pairs).  The code returns `full_history[-(2*N):]`, which on
the one-message transcript below (window size 5) is the whole transcript —
length 1, which is odd, contradicting the claimed invariant and the
function's own docstring ("Last N pairs = (window_size * 2) messages"). -/
theorem get_recent_history_odd_length :
    MemoryManager.get_recent_history 5
        [⟨some (pstr "user"), some (pstr "Who founded CURT?")⟩] =
      [⟨some (pstr "user"), some (pstr "Who founded CURT?")⟩] ∧
    (MemoryManager.get_recent_history 5
        [⟨some (pstr "user"), some (pstr "Who founded CURT?")⟩]).length % 2 = 1 := by
  constructor
  · rfl
  · rfl

/-- C6: `is_off_topic query` is true iff the lower-cased query contains no
on-topic keyword and at least one off-topic keyword; moreover the two
examples from the spec evaluate as stated. -/
theorem is_off_topic_spec :
    (∀ query : pystr,
      is_off_topic query = true ↔
        ((∀ term ∈ on_topic_terms, pyContains (pyLower query) term = false) ∧
         (∃ keyword ∈ off_topic_keywords, pyContains (pyLower query) keyword = true))) ∧
    is_off_topic (pstr "What's the weather?") = true ∧
    is_off_topic (pstr "Tell me about CURT's car") = false := by
  refine ⟨fun query => ?_, by decide, by decide⟩
  unfold is_off_topic
  by_cases h : on_topic_terms.any (fun term => pyContains (pyLower query) term) = true
  · rw [if_pos h]
    simp only [List.any_eq_true] at h
    obtain ⟨t, ht, hc⟩ := h
    constructor
    · intro hf; cases hf
    · rintro ⟨hall, -⟩
      rw [hall t ht] at hc
      cases hc
  · rw [if_neg h]
    have hall : ∀ t ∈ on_topic_terms, pyContains (pyLower query) t = false := by
      intro t ht
      by_contra hne
      exact h (List.any_eq_true.mpr ⟨t, ht, by simpa using hne⟩)
    simp only [List.any_eq_true]
    exact ⟨fun hex => ⟨hall, hex⟩, fun hp => hp.2⟩

/-- C9: the on-topic override is an unanchored substring test: any query
whose lower-cased text contains "car" anywhere (also inside a longer word)
makes `is_off_topic` return false, whatever off-topic keywords it contains. -/
theorem is_off_topic_car_substring (query : pystr)
    (h : pyContains (pyLower query) (pstr "car") = true) :
    is_off_topic query = false := by
  unfold is_off_topic
  have hany : on_topic_terms.any (fun term => pyContains (pyLower query) term) = true :=
    List.any_eq_true.mpr ⟨pstr "car", by decide, h⟩
  rw [if_pos hany]

/-- C9 witness: "scary movie" contains "car" inside "scary" and the off-topic
keyword "movie", yet `is_off_topic` is false. -/
theorem is_off_topic_car_substring_witness :
    pyContains (pyLower (pstr "scary movie")) (pstr "car") = true ∧
    pyContains (pyLower (pstr "scary movie")) (pstr "movie") = true ∧
    is_off_topic (pstr "scary movie") = false :=
  ⟨by decide, by decide, is_off_topic_car_substring (pstr "scary movie") (by decide)⟩

/-- C7: `format_sources []` is the empty string, and for every chunk list the
citation lines list each distinct source identifier exactly once, at its
first occurrence, in original chunk order (the emitted sources are exactly
the first-occurrence deduplication of the chunks' sources). -/
theorem format_sources_dedup :
    format_sources [] = pstr "" ∧
    ∀ chunks : List Doc,
      (emitSources 1 [] chunks).map Prod.snd = firstDedup (chunks.map sourceOf) ∧
      ((emitSources 1 [] chunks).map Prod.snd).Nodup ∧
      (∀ s : pystr, s ∈ (emitSources 1 [] chunks).map Prod.snd ↔ s ∈ chunks.map sourceOf) := by
  refine ⟨rfl, fun chunks => ⟨emitSources_map_snd chunks 1 [], ?_, fun s => ?_⟩⟩
  · rw [emitSources_map_snd chunks 1 []]
    exact firstDedupAux_nodup _ []
  · rw [emitSources_map_snd chunks 1 []]
    rw [firstDedupAux_mem]
    simp

/-- Chunks used for the C8 example: sources A, A, B. -/
def c8chunkA1 : Doc := ⟨pstr "first chunk", some (pstr "A"), none⟩

/-- Second chunk with the repeated source A. -/
def c8chunkA2 : Doc := ⟨pstr "second chunk", some (pstr "A"), none⟩

/-- Third chunk with source B. -/
def c8chunkB : Doc := ⟨pstr "third chunk", some (pstr "B"), none⟩

/-- C8: every citation line emitted by `format_sources` is numbered by its
chunk's 1-based position in the input list (the line `(n, s)` satisfies
`chunks[n-1].source = s`), not by its position among the deduplicated
sources; on chunks with sources [A, A, B] the lines are numbered 1 and 3. -/
theorem format_sources_numbering :
    (∀ (chunks : List Doc) (n : Nat) (s : pystr),
      (n, s) ∈ emitSources 1 [] chunks →
        1 ≤ n ∧ (chunks.map sourceOf)[n - 1]? = some s) ∧
    emitSources 1 [] [c8chunkA1, c8chunkA2, c8chunkB] =
      [(1, pstr "A"), (3, pstr "B")] := by
  exact ⟨fun chunks n s h => emitSources_index chunks 1 [] n s h, by decide⟩

/-- C8 witness: the pair (3, B) emitted for the third chunk indeed points at
position 3 of the input list. -/
theorem format_sources_numbering_witness :
    1 ≤ 3 ∧ ([c8chunkA1, c8chunkA2, c8chunkB].map sourceOf)[3 - 1]? = some (pstr "B") :=
  format_sources_numbering.1 [c8chunkA1, c8chunkA2, c8chunkB] 3 (pstr "B") (by decide)

/-- C10: `format_chat_history` never lengthens the list; a message without a
'role' key defaults to the user role and is emitted as a human message; and
a message is dropped exactly when it has an explicit role other than 'user'
or 'assistant'. -/
theorem format_chat_history_spec :
    (∀ messages : List Msg, (format_chat_history messages).length ≤ messages.length) ∧
    (∀ (msg : Msg) (rest : List Msg), msg.role = none →
      format_chat_history (msg :: rest) =
        LCMessage.human (msg.content.getD []) :: format_chat_history rest) ∧
    (∀ msg : Msg, convertMsg msg = none ↔
      ∃ r : pystr, msg.role = some r ∧ r ≠ pstr "user" ∧ r ≠ pstr "assistant") := by
  refine ⟨fun messages => List.length_filterMap_le _ _, fun msg rest hr => ?_, fun msg => ?_⟩
  · have hc : convertMsg msg = some (LCMessage.human (msg.content.getD [])) := by
      unfold convertMsg
      rw [hr]
      rfl
    unfold format_chat_history
    rw [List.filterMap_cons, hc]
  · unfold convertMsg
    cases hrole : msg.role with
    | none =>
      simp only [Option.getD]
      constructor
      · intro h
        exact absurd h (by simp)
      · rintro ⟨r, hr, -⟩
        cases hr
    | some r =>
      simp only [Option.getD]
      by_cases hu : r = pstr "user"
      · rw [if_pos hu]
        constructor
        · intro h; cases h
        · rintro ⟨r', hr', hu', -⟩
          rw [Option.some.injEq] at hr'
          exact absurd (hr' ▸ hu) hu'
      · rw [if_neg hu]
        by_cases ha : r = pstr "assistant"
        · rw [if_pos ha]
          constructor
          · intro h; cases h
          · rintro ⟨r', hr', -, ha'⟩
            rw [Option.some.injEq] at hr'
            exact absurd (hr' ▸ ha) ha'
        · rw [if_neg ha]
          exact ⟨fun _ => ⟨r, rfl, hu, ha⟩, fun _ => rfl⟩

/-- C10 witness: a message with no role key and content "hi" is kept as a
human message. -/
theorem format_chat_history_spec_witness :
    format_chat_history [⟨none, some (pstr "hi")⟩] = [LCMessage.human (pstr "hi")] := by
  have h := format_chat_history_spec.2.1 ⟨none, some (pstr "hi")⟩ [] rfl
  simpa using h

/-- C5: for every behaviour of the external collaborators, a greeting query
short-circuits: `run` returns the canned greeting response with no sources
and status `greeting`, independently of the collaborators. -/
theorem run_greeting_shortcircuit (O : Oracles) (query : pystr)
    (chat_history : List Msg) (h : is_greeting query = true) :
    CURTRagPipeline.run O query chat_history =
      { answer := GREETING_RESPONSE, raw_answer := none, sources := [],
        expanded_query := none, status := Status.greeting } := by
  unfold CURTRagPipeline.run
  rw [if_pos h]

/-- C5 witness: the query "hi" is a greeting and yields the canned result. -/
theorem run_greeting_shortcircuit_witness :
    is_greeting (pstr "hi") = true ∧
    CURTRagPipeline.run sampleOracles (pstr "hi") [] =
      { answer := GREETING_RESPONSE, raw_answer := none, sources := [],
        expanded_query := none, status := Status.greeting } :=
  ⟨by decide, run_greeting_shortcircuit sampleOracles (pstr "hi") [] (by decide)⟩

/-- C4: when retrieval returns at least one candidate and the Cohere rerank
call raises, the pipeline still returns status `success` with sources equal
to the first 5 retrieved candidates in original retrieval order. -/
theorem run_rerank_failure (O : Oracles) (query : pystr) (chat_history : List Msg)
    (hg : is_greeting query = false) (ho : is_off_topic query = false)
    (hr : CURTRagPipeline.raw_docs O query ≠ [])
    (hf : O.rerank query ((CURTRagPipeline.raw_docs O query).map (·.page_content)) 5 =
      Except.error ()) :
    (CURTRagPipeline.run O query chat_history).status = Status.success ∧
    (CURTRagPipeline.run O query chat_history).sources =
      (CURTRagPipeline.raw_docs O query).take 5 := by
  unfold CURTRagPipeline.run
  rw [if_neg (by simp [hg]), if_neg (by simp [ho]), if_neg hr]
  refine ⟨rfl, ?_⟩
  show CURTRagPipeline.valid_docs O query = _
  unfold CURTRagPipeline.valid_docs rerank_with_cohere
  rw [if_neg hr, hf]

/-- C4 witness: with `flagOracles` (whose rerank call raises) and an on-topic
query, the pipeline succeeds and keeps the retrieval's first 5 chunks. -/
theorem run_rerank_failure_witness :
    (CURTRagPipeline.run flagOracles (pstr "curt history") []).status = Status.success ∧
    (CURTRagPipeline.run flagOracles (pstr "curt history") []).sources =
      (CURTRagPipeline.raw_docs flagOracles (pstr "curt history")).take 5 :=
  run_rerank_failure flagOracles (pstr "curt history") [] (by decide) (by decide)
    (by decide) rfl

/-- C3 counterexample: on the greeting path the returned dict has no
`raw_answer` and no `expanded_query` key, so `run` does not return all five
fields on every path, contrary to the claim. -/
theorem run_greeting_missing_fields :
    (CURTRagPipeline.run sampleOracles (pstr "hi") []).raw_answer = none ∧
    (CURTRagPipeline.run sampleOracles (pstr "hi") []).expanded_query = none ∧
    (CURTRagPipeline.run sampleOracles (pstr "hi") []).status = Status.greeting := by
  refine ⟨by decide, by decide, by decide⟩

/-- C3 amended: `run` always returns `answer`, `sources` and a `status` drawn
from the four-value enum; the `raw_answer` and `expanded_query` fields are
present exactly on the success path (the greeting, off-topic and no-docs
short-circuits omit them). -/
theorem run_field_presence (O : Oracles) (query : pystr) (chat_history : List Msg) :
    ((CURTRagPipeline.run O query chat_history).status = Status.greeting ∨
     (CURTRagPipeline.run O query chat_history).status = Status.off_topic ∨
     (CURTRagPipeline.run O query chat_history).status = Status.no_docs ∨
     (CURTRagPipeline.run O query chat_history).status = Status.success) ∧
    ((CURTRagPipeline.run O query chat_history).raw_answer.isSome = true ↔
      (CURTRagPipeline.run O query chat_history).status = Status.success) ∧
    ((CURTRagPipeline.run O query chat_history).expanded_query.isSome = true ↔
      (CURTRagPipeline.run O query chat_history).status = Status.success) := by
  unfold CURTRagPipeline.run
  by_cases h1 : is_greeting query = true
  · rw [if_pos h1]
    exact ⟨Or.inl rfl, by simp, by simp⟩
  · rw [if_neg h1]
    by_cases h2 : is_off_topic query = true
    · rw [if_pos h2]
      exact ⟨Or.inr (Or.inl rfl), by simp, by simp⟩
    · rw [if_neg h2]
      by_cases h3 : CURTRagPipeline.raw_docs O query = []
      · rw [if_pos h3]
        exact ⟨Or.inr (Or.inr (Or.inl rfl)), by simp, by simp⟩
      · rw [if_neg h3]
        exact ⟨Or.inr (Or.inr (Or.inr rfl)), by simp, by simp⟩

/-- C2 counterexample: with collaborators whose verification response starts
with the hallucination marker, the returned `raw_answer` also contains the
disclaimer (it is captured after the disclaimer is appended), contrary to
the claim that only the final answer contains it. -/
theorem run_disclaimer_counterexample :
    pyStartsWith
      (pyUpper (pyStrip (CURTRagPipeline.check_result flagOracles (pstr "curt achievements") [])))
      (pstr "HALLUCINATION") = true ∧
    pyContains (CURTRagPipeline.run flagOracles (pstr "curt achievements") []).answer
      DISCLAIMER = true ∧
    pyContains ((CURTRagPipeline.run flagOracles (pstr "curt achievements") []).raw_answer.getD [])
      DISCLAIMER = true := by
  refine ⟨by decide, by decide, by decide⟩

/-- C2 amended: whenever the verification step flags the draft answer (its
response starts with the hallucination marker after strip/upper), the fixed
disclaimer is appended to the draft before `raw_answer` is captured, so BOTH
the final answer and `raw_answer` contain the disclaimer substring. -/
theorem run_disclaimer_in_both (O : Oracles) (query : pystr) (chat_history : List Msg)
    (hg : is_greeting query = false) (ho : is_off_topic query = false)
    (hr : CURTRagPipeline.raw_docs O query ≠ [])
    (hf : pyStartsWith (pyUpper (pyStrip (CURTRagPipeline.check_result O query chat_history)))
        (pstr "HALLUCINATION") = true) :
    pyContains (CURTRagPipeline.run O query chat_history).answer DISCLAIMER = true ∧
    (CURTRagPipeline.run O query chat_history).raw_answer =
      some (CURTRagPipeline.draft_answer O query chat_history ++ DISCLAIMER) ∧
    pyContains ((CURTRagPipeline.run O query chat_history).raw_answer.getD [])
      DISCLAIMER = true := by
  have hca : CURTRagPipeline.checked_answer O query chat_history =
      CURTRagPipeline.draft_answer O query chat_history ++ DISCLAIMER := by
    unfold CURTRagPipeline.checked_answer
    rw [if_pos hf]
  unfold CURTRagPipeline.run
  rw [if_neg (by simp [hg]), if_neg (by simp [ho]), if_neg hr]
  refine ⟨?_, ?_, ?_⟩
  · show pyContains
      (enhance_response_with_sources (CURTRagPipeline.checked_answer O query chat_history)
        (CURTRagPipeline.valid_docs O query)) DISCLAIMER = true
    unfold enhance_response_with_sources
    rw [hca]
    by_cases hs : format_sources (CURTRagPipeline.valid_docs O query) ≠ []
    · rw [if_pos hs]
      exact (pyContains_iff _ _).mpr
        ⟨CURTRagPipeline.draft_answer O query chat_history,
         pstr "\n" ++ format_sources (CURTRagPipeline.valid_docs O query), by simp⟩
    · rw [if_neg hs]
      exact pyContains_suffix _ _
  · show some (CURTRagPipeline.checked_answer O query chat_history) = _
    rw [hca]
  · show pyContains
      ((some (CURTRagPipeline.checked_answer O query chat_history)).getD []) DISCLAIMER = true
    rw [Option.getD_some, hca]
    exact pyContains_suffix _ _

/-- C2 amended witness: with `flagOracles` the hypotheses hold and both the
answer and the raw answer contain the disclaimer. -/
theorem run_disclaimer_in_both_witness :
    pyContains (CURTRagPipeline.run flagOracles (pstr "curt projects") []).answer
      DISCLAIMER = true ∧
    (CURTRagPipeline.run flagOracles (pstr "curt projects") []).raw_answer =
      some (CURTRagPipeline.draft_answer flagOracles (pstr "curt projects") [] ++ DISCLAIMER) ∧
    pyContains ((CURTRagPipeline.run flagOracles (pstr "curt projects") []).raw_answer.getD [])
      DISCLAIMER = true :=
  run_disclaimer_in_both flagOracles (pstr "curt projects") [] (by decide) (by decide)
    (by decide) (by decide)
